import Mathlib

/-!
Verification development for the motivational-standards table extractor
(`extract.py`).  The Python source is shallowly embedded: every string
operation is modelled on the underlying character list (`String.data`),
Python `float` values are modelled by exact rationals (the reachable values
are decimal fractions, on which float and rational ordering agree), and the
scanner loop is modelled as a structurally recursive function over the list
of input lines.  Python expressions that can raise (`x, y = s.rsplit(' ', 1)`)
are modelled in the `Except` monad.
-/

namespace Extract

/-! ## Rational helpers

`Rat.add` and `Rat.mul` are `@[irreducible]` in Batteries, which blocks
kernel evaluation of concrete witnesses, so the embedding computes with
`mkRat` directly and the bridge lemmas below restore the ordinary
operations in theorem statements. -/

def qmul (a b : ℚ) : ℚ := mkRat (a.num * b.num) (a.den * b.den)

def qadd (a b : ℚ) : ℚ := mkRat (a.num * b.den + b.num * a.den) (a.den * b.den)

theorem qmul_eq (a b : ℚ) : qmul a b = a * b := by
  rw [qmul, Rat.mkRat_eq_divInt]
  conv_rhs => rw [← Rat.num_divInt_den a, ← Rat.num_divInt_den b]
  rw [Rat.divInt_mul_divInt']
  push_cast
  ring_nf

theorem qadd_eq (a b : ℚ) : qadd a b = a + b := by
  have ha : (a.den : ℤ) ≠ 0 := by exact_mod_cast a.den_nz
  have hb : (b.den : ℤ) ≠ 0 := by exact_mod_cast b.den_nz
  rw [qadd, Rat.mkRat_eq_divInt]
  conv_rhs => rw [← Rat.num_divInt_den a, ← Rat.num_divInt_den b]
  rw [Rat.divInt_add_divInt _ _ ha hb]
  push_cast
  ring_nf

/-! ## Character-list string primitives (models of the Python `str` methods) -/

/-- Model of Python `s.isdigit()` on ASCII data: nonempty and all digits. -/
def isDigitStr (s : String) : Bool := !s.data.isEmpty && s.data.all Char.isDigit

/-- Model of Python `s.startswith(':')`. -/
def startsColon (s : String) : Bool :=
  match s.data with
  | ':' :: _ => true
  | _ => false

/-- Model of Python `s.strip()`: drop leading and trailing whitespace. -/
def pyStrip (s : String) : String :=
  String.mk (((s.data.dropWhile Char.isWhitespace).reverse.dropWhile
    Char.isWhitespace).reverse)

/-- Model of Python `s.replace('*', '')`: delete every asterisk. -/
def removeStars (s : String) : String := String.mk (s.data.filter (· ≠ '*'))

/-- Model of Python `s.split(sep)` for a one-character separator `sep`
(empty pieces are kept, as in Python). -/
def splitChar (sep : Char) : List Char → List (List Char)
  | [] => [[]]
  | c :: t =>
    if c = sep then [] :: splitChar sep t
    else
      match splitChar sep t with
      | h :: r => (c :: h) :: r
      | [] => [[c]]

/-- Model of Python `s.split()` (no argument): split on whitespace runs,
discarding empty pieces. -/
def pySplit (s : String) : List String :=
  ((splitChar ' ' (s.data.map (fun c => if c.isWhitespace then ' ' else c))).map
    String.mk).filter (fun t => t ≠ "")

/-- Substring test on character lists (model of Python `in` for strings). -/
def containsChars (pat : List Char) (l : List Char) : Bool :=
  l.tails.any (fun t => pat.isPrefixOf t)

/-! ## Model of Python `float(s)` on its decimal fragment

`float` accepts surrounding whitespace, an optional sign, and decimal forms
`digits`, `digits.`, `.digits`, `digits.digits`.  The exotic accepted forms
(exponents, `inf`, `nan`, underscores) cannot arise from this program's
token grammar and are not modelled. -/

def digitsToNat (cs : List Char) : Nat :=
  cs.foldl (fun n c => 10 * n + (c.toNat - '0'.toNat)) 0

def pyFloat (s : String) : Option ℚ :=
  let cs := ((s.data.dropWhile Char.isWhitespace).reverse.dropWhile
    Char.isWhitespace).reverse
  let neg := match cs with | '-' :: _ => true | _ => false
  let cs1 := match cs with
    | '-' :: r => r
    | '+' :: r => r
    | r => r
  let intPart := cs1.takeWhile Char.isDigit
  let rest := cs1.dropWhile Char.isDigit
  match rest with
  | [] =>
    if intPart.isEmpty then none
    else some (mkRat (if neg then -(digitsToNat intPart : Int) else
      (digitsToNat intPart : Int)) 1)
  | '.' :: fr =>
    if fr.all Char.isDigit && (!intPart.isEmpty || !fr.isEmpty) then
      some (mkRat
        (if neg then -(digitsToNat (intPart ++ fr) : Int) else
          (digitsToNat (intPart ++ fr) : Int))
        (10 ^ fr.length))
    else none
  | _ => none

/-! ## TimeCodec: `parse_time_to_seconds` -/

/-- Model of `parse_time_to_seconds(time_str)` from `extract.py`.
The argument is an `Option String` because Python callers may pass `None`;
`if not time_str` is true exactly for `None` and `""`. -/
def parse_time_to_seconds : Option String → Option ℚ
  | none => none
  | some s =>
    if s = "" then none
    else
      let t := pyStrip (removeStars s)
      if t.data.contains ':' then
        match (splitChar ':' t.data).map String.mk with
        | [m, sec] =>
          match pyFloat m, pyFloat sec with
          | some mv, some sv => some (qadd (qmul mv (60 : ℚ)) sv)
          | _, _ => none
        | _ => none
      else pyFloat t

/-! ## Token vocabularies and grammars -/

def strokeCodes : List String := ["FR", "BK", "BR", "FL", "IM", "FR-R", "MED-R"]

def courseCodes : List String := ["SCY", "SCM", "LCM"]

def relayCodes : List String := ["FR-R", "MED-R"]

def CUT_ORDER_LABELS_LEFT : List String := ["B", "BB", "A", "AA", "AAA", "AAAA"]

def CUT_ORDER_LABELS_RIGHT : List String := ["AAAA", "AAA", "AA", "A", "BB", "B"]

/-- Tail of the time grammar: exactly `\d{2}\.\d{2}`. -/
def timeTail (cs : List Char) : Bool :=
  match cs with
  | [a, b, dot, c, d] =>
    a.isDigit && b.isDigit && dot = '.' && c.isDigit && d.isDigit
  | _ => false

/-- Body of the time grammar: `(?:\d{1,2}:)?\d{2}\.\d{2}` anchored on both
sides.  A colon can only sit at index 1 or 2, and the bare `\d{2}\.\d{2}`
form has a dot at index 2, so the three branches are mutually exclusive. -/
def timeBody (cs : List Char) : Bool :=
  match cs with
  | a :: ':' :: rest => a.isDigit && timeTail rest
  | a :: b :: ':' :: rest => a.isDigit && b.isDigit && timeTail rest
  | _ => timeTail cs

/-- The merger's time grammar `^(?:\d{1,2}:)?\d{2}\.\d{2}$` (no marker). -/
def timePatternMatch (s : String) : Bool := timeBody s.data

/-- The validator's time grammar
`^(?:\d{1,2}:)?\d{2}\.\d{2}(?:\s*\*)?$`: an optional qualifier suffix of
whitespace and one asterisk.  The body always ends in a digit, so a match
ending in `*` must use the optional group. -/
def timeStdMatch (s : String) : Bool :=
  match s.data.reverse with
  | '*' :: rest => timeBody (rest.dropWhile Char.isWhitespace).reverse
  | _ => timeBody s.data

/-- The validator's event grammar
`^\d{2,4}\s+(FR|BK|BR|FL|IM|FR-R|MED-R)\s+(SCY|SCM|LCM)$`.  Each group is
followed by `\s+` or the anchor, so every group must consume a maximal run
and backtracking cannot produce any other successful split. -/
def eventPatternMatch (s : String) : Bool :=
  let cs := s.data
  let d := cs.takeWhile Char.isDigit
  let r1 := cs.dropWhile Char.isDigit
  let w1 := r1.takeWhile Char.isWhitespace
  let r2 := r1.dropWhile Char.isWhitespace
  let sc := r2.takeWhile (fun c => !c.isWhitespace)
  let r3 := r2.dropWhile (fun c => !c.isWhitespace)
  let w2 := r3.takeWhile Char.isWhitespace
  let r4 := r3.dropWhile Char.isWhitespace
  decide (2 ≤ d.length) && decide (d.length ≤ 4) &&
    decide (1 ≤ w1.length) && strokeCodes.contains (String.mk sc) &&
    decide (1 ≤ w2.length) && courseCodes.contains (String.mk r4)

/-! ## TokenMerger: `clean_row` -/

/-- Model of `clean_row(items)` from `extract.py`: a single forward pass
merging (1) split event descriptors, (2) split time values with an optional
trailing marker, (3) a complete time value followed by a bare marker. -/
def clean_row : List String → List String
  | [] => []
  | [a] => [a]
  | [a, b] =>
    if isDigitStr a && startsColon b then [a ++ b]
    else if timePatternMatch a && b = "*" then [a ++ " *"]
    else a :: clean_row [b]
  | a :: b :: c :: t =>
    if isDigitStr a && strokeCodes.contains b && courseCodes.contains c then
      (a ++ " " ++ b ++ " " ++ c) :: clean_row t
    else if isDigitStr a && startsColon b then
      if c = "*" then (a ++ b ++ " *") :: clean_row t
      else (a ++ b) :: clean_row (c :: t)
    else if timePatternMatch a && b = "*" then
      (a ++ " *") :: clean_row (c :: t)
    else a :: clean_row (b :: c :: t)

/-! ## LineClassifier raw-line predicates -/

/-- Model of `is_whitespace_row`: `not line_text.strip()`. -/
def is_whitespace_row (line : String) : Bool := line.data.all Char.isWhitespace

/-- Model of `is_general_title_row`: `"motivational" in line_text.lower()`. -/
def is_general_title_row (line : String) : Bool :=
  containsChars "motivational".data (line.data.map Char.toLower)

/-- One-or-two-digit run followed by the rest matched by `k`.  Used for the
`\d{1,2}` groups of the timestamp search; trying both lengths models the
regex engine's backtracking. -/
def dig12 (cs : List Char) (k : List Char → Bool) : Bool :=
  match cs with
  | a :: b :: r => (a.isDigit && b.isDigit && k r) || (a.isDigit && k (b :: r))
  | [a] => a.isDigit && k []
  | [] => false

/-- The timestamp pattern
`\d{1,2}/\d{1,2}/\d{4} \d{1,2}:\d{2}:\d{2} (AM|PM)` anchored at the start
of `cs`. -/
def timestampAt (cs : List Char) : Bool :=
  dig12 cs fun r1 =>
    match r1 with
    | '/' :: r2 =>
      dig12 r2 fun r3 =>
        match r3 with
        | '/' :: y1 :: y2 :: y3 :: y4 :: ' ' :: r4 =>
          y1.isDigit && y2.isDigit && y3.isDigit && y4.isDigit &&
            (dig12 r4 fun r5 =>
              match r5 with
              | ':' :: m1 :: m2 :: ':' :: s1 :: s2 :: ' ' :: r6 =>
                m1.isDigit && m2.isDigit && s1.isDigit && s2.isDigit &&
                  ("AM".data.isPrefixOf r6 || "PM".data.isPrefixOf r6)
              | _ => false)
        | _ => false
    | _ => false

/-- Model of `is_timestamp_row`: `re.search` of the timestamp pattern, i.e.
a match starting at any position. -/
def is_timestamp_row (line : String) : Bool := line.data.tails.any timestampAt

/-- The `Page \d+ of \d+` pattern anchored at the start of `cs`: both `\d+`
groups are followed by a non-digit (or may end anywhere under `search`), so
the first must be a maximal run. -/
def pageNumberAt (cs : List Char) : Bool :=
  if "Page ".data.isPrefixOf cs then
    let r1 := cs.drop 5
    let d1 := r1.takeWhile Char.isDigit
    let r2 := r1.dropWhile Char.isDigit
    decide (1 ≤ d1.length) && " of ".data.isPrefixOf r2 &&
      (match r2.drop 4 with
       | c :: _ => c.isDigit
       | [] => false)
  else false

/-- Model of `is_page_number_row`: `re.search(r"Page \d+ of \d+", line)`. -/
def is_page_number_row (line : String) : Bool := line.data.tails.any pageNumberAt

/-! ## Demographic-context header: `parse_age_gender_header`

The header regex is
`^(A)\s+(Girls|Boys)\s+(?:Event\s+)?(A)\s+(Girls|Boys)$` on the stripped
line, where `A = (\d+ & over|\d+ & under|\d+-\d+|\d+)`.  Inside `A` each
`\d+` is followed by a non-digit, so it always consumes a maximal digit
run; the alternatives are tried in regex order, with the bare `\d+` as the
final fallback — `ageCandidates` returns the possible (matched, rest)
splits in that order and the caller backtracks through them. -/

def ageCandidates (cs : List Char) : List (List Char × List Char) :=
  let ds := cs.takeWhile Char.isDigit
  let rest := cs.dropWhile Char.isDigit
  if ds.isEmpty then []
  else
    (match rest with
     | ' ' :: '&' :: ' ' :: 'o' :: 'v' :: 'e' :: 'r' :: r =>
       [(ds ++ " & over".data, r)]
     | ' ' :: '&' :: ' ' :: 'u' :: 'n' :: 'd' :: 'e' :: 'r' :: r =>
       [(ds ++ " & under".data, r)]
     | '-' :: r2 =>
       let ds2 := r2.takeWhile Char.isDigit
       if ds2.isEmpty then []
       else [(ds ++ '-' :: ds2, r2.dropWhile Char.isDigit)]
     | _ => []) ++ [(ds, rest)]

/-- Consume one-or-more whitespace (`\s+`, maximal munch). -/
def wsPlus (cs : List Char) : Option (List Char) :=
  match cs with
  | c :: r => if c.isWhitespace then some (r.dropWhile Char.isWhitespace) else none
  | [] => none

/-- Match `(Girls|Boys)`, returning the matched word and the rest. -/
def genderAt (cs : List Char) : Option (List Char × List Char) :=
  if "Girls".data.isPrefixOf cs then some ("Girls".data, cs.drop 5)
  else if "Boys".data.isPrefixOf cs then some ("Boys".data, cs.drop 4)
  else none

/-- Match `A\s+(Girls|Boys)$` (the trailing age/gender pair). -/
def ageGenderEnd (cs : List Char) : Option (List Char × List Char) :=
  (ageCandidates cs).findSome? fun p =>
    match wsPlus p.2 with
    | none => none
    | some r1 =>
      match genderAt r1 with
      | some (g, []) => some (p.1, g)
      | _ => none

/-- Model of `parse_age_gender_header(line_text)`; `none` stands for the
Python return `(None, None)`. -/
def parse_age_gender_header (line : String) : Option (String × String) :=
  let cs := (pyStrip line).data
  (ageCandidates cs).findSome? fun p =>
    match wsPlus p.2 with
    | none => none
    | some r1 =>
      match genderAt r1 with
      | none => none
      | some (g1, r2) =>
        match wsPlus r2 with
        | none => none
        | some r3 =>
          let tail1 :=
            if "Event".data.isPrefixOf r3 then
              match wsPlus (r3.drop 5) with
              | some r4 => ageGenderEnd r4
              | none => none
            else none
          match tail1 <|> ageGenderEnd r3 with
          | some (a2, g2) =>
            some (String.mk (p.1 ++ ' ' :: g1), String.mk (a2 ++ ' ' :: g2))
          | none => none

/-- Model of `is_cut_order_header_row(cleaned_row)`. -/
def is_cut_order_header_row (row : List String) : Bool :=
  row = ["B", "BB", "A", "AA", "AAA", "AAAA", "Event",
         "AAAA", "AAA", "AA", "A", "BB", "B"] ||
  row = ["B", "BB", "A", "AA", "AAA", "AAAA",
         "AAAA", "AAA", "AA", "A", "BB", "B"]

/-! ## RecordValidator: `is_data_row` -/

/-- `∃ i, l[i] < l[i+1]` — the left ordering walk rejects exactly when this
holds of the decoded non-blank left values. -/
def hasAdjRise : List ℚ → Bool
  | a :: b :: t => decide (a < b) || hasAdjRise (b :: t)
  | _ => false

/-- `∃ i, l[i] > l[i+1]` — the right ordering walk rejects exactly when
this holds of the decoded non-blank right values. -/
def hasAdjFall : List ℚ → Bool
  | a :: b :: t => decide (b < a) || hasAdjFall (b :: t)
  | _ => false

/-- The decoded non-blank values of a token list (`parse_time_to_seconds`
over each token, discarding `None`). -/
def comparableTimes (tokens : List String) : List ℚ :=
  (tokens.map (fun t => parse_time_to_seconds (some t))).reduceOption

/-- Model of `is_data_row(row)` from `extract.py`: the `(ok, reason)` pair,
with `reason : Option String` (`none` for Python `None`). -/
def is_data_row (row : List String) : Bool × Option String :=
  if row.length ≠ 13 then (false, some "Incorrect number of columns")
  else
    let event := row.getD 6 ""
    if !eventPatternMatch event then
      (false, some ("Invalid event format: " ++ event))
    else
      let standards_left := row.take 6
      let standards_right := row.drop 7
      let time_columns := standards_left ++ standards_right
      match time_columns.find? (fun t => t ≠ "" && !timeStdMatch t) with
      | some t =>
        (false, some ("Invalid time format in standards column: " ++ t))
      | none =>
        if hasAdjRise (comparableTimes standards_left) then
          (false, some "Left standards not in descending order")
        else if hasAdjFall (comparableTimes standards_right) then
          (false, some "Right standards not in ascending order")
        else (true, none)

/-! ## Scanner: `parse_and_structure_data`

The loop is modelled as structural recursion over the line list with the
cursor `i` carried for 1-based line numbers.  The one Python expression on
this path that can raise on malformed state —
`age, gender = context.rsplit(' ', 1)` — is modelled in `Except`. -/

/-- An output record (`{"age": ..., "gender": ..., "event": ...,
"standards": ...}`); the standards mapping is an association list in
insertion order, holding exactly the non-blank pairs. -/
structure DataRecord where
  age : String
  gender : String
  event : String
  standards : List (String × String)
deriving DecidableEq, Repr

/-- The scanner's mutable state: accumulated records, accumulated flagged
rows (tokens, reason, 1-based line number), and the two context variables
`left_context` / `right_context` (Python `None` ↦ `none`). -/
structure ScanState where
  structured : List DataRecord
  flagged : List (List String × Option String × Nat)
  left_context : Option String
  right_context : Option String
deriving DecidableEq, Repr

/-- Model of Python `s.rsplit(' ', 1)` destructured into two variables:
splits at the last literal space; `none` models the `ValueError` raised
when the string has no space. -/
def pyRsplitSpace1 (s : String) : Option (String × String) :=
  let r := s.data.reverse
  let after := r.takeWhile (fun c => c ≠ ' ')
  match r.dropWhile (fun c => c ≠ ' ') with
  | ' ' :: before => some (String.mk before.reverse, String.mk after.reverse)
  | _ => none

/-- Python `if not left_context or not right_context`: the contexts pass
the truthiness test exactly when both are set and non-empty. -/
def ctxPair : Option String → Option String → Option (String × String)
  | some l, some r => if l ≠ "" && r ≠ "" then some (l, r) else none
  | _, _ => none

/-- Python's truthiness filter on a (label, time) pair: keep non-blank
times. -/
def nonBlank (p : String × String) : Bool := p.2 ≠ ""

/-- Step 5 of the scan: validate a cleaned row and either build records,
flag it for missing context, or flag it with the validator's reason. -/
def processCleaned (cleaned : List String) (i : Nat) (st : ScanState) :
    Except String ScanState :=
  let vr := is_data_row cleaned
  if vr.1 then
    match ctxPair st.left_context st.right_context with
    | none =>
      .ok {st with flagged := st.flagged ++
        [(cleaned, some "Data row found without age/gender context", i + 1)]}
    | some (lc, rc) =>
      match pyRsplitSpace1 lc with
      | none => .error "ValueError: not enough values to unpack"
      | some (la, lg) =>
        match pyRsplitSpace1 rc with
        | none => .error "ValueError: not enough values to unpack"
        | some (ra, rg) =>
          let event := cleaned.getD 6 ""
          let left_standards :=
            (CUT_ORDER_LABELS_LEFT.zip (cleaned.take 6)).filter nonBlank
          let st1 :=
            if left_standards.isEmpty then st
            else {st with structured :=
              st.structured ++ [⟨la, lg, event, left_standards⟩]}
          let right_standards :=
            (CUT_ORDER_LABELS_RIGHT.zip (cleaned.drop 7)).filter nonBlank
          .ok (if right_standards.isEmpty then st1
            else {st1 with structured :=
              st1.structured ++ [⟨ra, rg, event, right_standards⟩]})
  else .ok {st with flagged := st.flagged ++ [(cleaned, vr.2, i + 1)]}

/-- Steps 1 of the scan: the four raw-line junk checks.  Each of Python's
sequential checks skips the line in the same way, so their sequence is the
disjunction. -/
def isJunkLine (line : String) : Bool :=
  is_whitespace_row line || is_general_title_row line ||
    is_timestamp_row line || is_page_number_row line

/-- The split-relay reassembly step: on a 14-token row whose token 6 is
all-digits and token 7 a relay code, and whose (independently merged)
lookahead line is exactly one valid course code, rebuild the 13-token row
with the fused event descriptor; the boolean reports whether the lookahead
line was consumed. -/
def fuseRelay (cleaned : List String) (lookahead : Option String) :
    List String × Bool :=
  if cleaned.length == 14 && isDigitStr (cleaned.getD 6 "") &&
      relayCodes.contains (cleaned.getD 7 "") then
    match lookahead with
    | some nxt =>
      match clean_row (pySplit nxt) with
      | [c] =>
        if courseCodes.contains c then
          (cleaned.take 6 ++
            [cleaned.getD 6 "" ++ " " ++ cleaned.getD 7 "" ++ " " ++ c]
            ++ cleaned.drop 8, true)
        else (cleaned, false)
      | _ => (cleaned, false)
    | none => (cleaned, false)
  else (cleaned, false)

/-- One iteration of the scan over `line` with one line of lookahead.
Returns the new state and whether the lookahead line was consumed (the
split-relay fusion).  A matched context header always sets both context
variables together; the matched left context is never the empty string, so
Python's `if new_left:` truthiness test is the `some` case. -/
def scanBody (line : String) (lookahead : Option String) (i : Nat)
    (st : ScanState) : Except String (ScanState × Bool) :=
  if isJunkLine line then .ok (st, false)
  else
    match parse_age_gender_header line with
    | some (l, r) =>
      .ok ({st with left_context := some l, right_context := some r}, false)
    | none =>
      let cleaned := clean_row (pySplit line)
      if cleaned.isEmpty then .ok (st, false)
      else
        let fused := fuseRelay cleaned lookahead
        if is_cut_order_header_row fused.1 then .ok (st, fused.2)
        else (processCleaned fused.1 i st).map (fun st2 => (st2, fused.2))

/-- The scanner's driving loop: cursor `i`, one line of lookahead, and an
advance of two lines when the lookahead was consumed. -/
def scanLoop : List String → Nat → ScanState → Except String ScanState
  | [], _, st => .ok st
  | [line], i, st =>
    match scanBody line none i st with
    | .error e => .error e
    | .ok (st2, _) => .ok st2
  | line :: next :: rest, i, st =>
    match scanBody line (some next) i st with
    | .error e => .error e
    | .ok (st2, true) => scanLoop rest (i + 2) st2
    | .ok (st2, false) => scanLoop (next :: rest) (i + 1) st2

/-- The scanner's initial state: empty accumulators, both contexts unset. -/
def initState : ScanState := ⟨[], [], none, none⟩

/-- A whole scan, exposing the final state (records, flagged rows and
contexts). -/
def scanFull (lines : List String) : Except String ScanState :=
  scanLoop lines 0 initState

/-- Model of `parse_and_structure_data(text_lines)`: the Python function
returns `structured_data`. -/
def parse_and_structure_data (lines : List String) :
    Except String (List DataRecord) :=
  (scanFull lines).map ScanState.structured

deriving instance DecidableEq for Except

/-! ## Helper lemmas -/

theorem removeStars_idem (s : String) :
    removeStars (removeStars s) = removeStars s := by
  simp [removeStars, List.filter_filter]

theorem removeStars_empty : removeStars "" = "" := rfl

/-- Claim C6: `parse_time_to_seconds` is total (it is a Lean function) and
returns `none` for `None`, the empty string, a cleaned remainder whose
colon split does not have exactly two parts, or a two-part split where
either part fails to parse as a number; when both parts parse it returns
`60 * minutes + seconds`, and a colon-free remainder parses directly as
seconds. -/
theorem parse_time_to_seconds_cases :
    parse_time_to_seconds none = none ∧
    parse_time_to_seconds (some "") = none ∧
    (∀ s : String, s ≠ "" →
      ((pyStrip (removeStars s)).data.contains ':' = true →
        (((splitChar ':' (pyStrip (removeStars s)).data).map String.mk).length ≠ 2 →
          parse_time_to_seconds (some s) = none) ∧
        (∀ m sec,
          (splitChar ':' (pyStrip (removeStars s)).data).map String.mk = [m, sec] →
          ((pyFloat m = none ∨ pyFloat sec = none) →
            parse_time_to_seconds (some s) = none) ∧
          (∀ mv sv, pyFloat m = some mv → pyFloat sec = some sv →
            parse_time_to_seconds (some s) = some (60 * mv + sv)))) ∧
      ((pyStrip (removeStars s)).data.contains ':' = false →
        parse_time_to_seconds (some s) = pyFloat (pyStrip (removeStars s)))) := by
  refine ⟨rfl, rfl, fun s hs => ⟨fun hc => ⟨?_, ?_⟩, fun hc => ?_⟩⟩
  · intro hlen
    simp only [parse_time_to_seconds, if_neg hs, hc, if_true]
    rcases h : (splitChar ':' (pyStrip (removeStars s)).data).map String.mk with
      _ | ⟨m, _ | ⟨sec, _ | _⟩⟩ <;> simp_all
  · intro m sec hsplit
    refine ⟨?_, ?_⟩
    · rintro (hm | hsec)
      · simp only [parse_time_to_seconds, if_neg hs, hc, if_true, hsplit, hm]
      · simp only [parse_time_to_seconds, if_neg hs, hc, if_true, hsplit, hsec]
        rcases pyFloat m with _ | _ <;> rfl
    · intro mv sv hm hsv
      simp only [parse_time_to_seconds, if_neg hs, hc, if_true, hsplit, hm, hsv]
      rw [qadd_eq, qmul_eq, mul_comm]
  · simp only [parse_time_to_seconds, if_neg hs, hc]
    rfl

/-- Witness for C6 at concrete inputs: the well-formed `1:05.39` has the
two-part split with both parts parsing, and yields `60·1 + 5.39`; the
unparsable colon input `1:2:3` yields `none`. -/
theorem parse_time_to_seconds_cases_witness :
    (splitChar ':' (pyStrip (removeStars "1:05.39")).data).map String.mk =
      ["1", "05.39"] ∧
    pyFloat "1" = some (mkRat 1 1) ∧
    pyFloat "05.39" = some (mkRat 539 100) ∧
    parse_time_to_seconds (some "1:05.39") =
      some (60 * mkRat 1 1 + mkRat 539 100) ∧
    parse_time_to_seconds (some "1:2:3") = none := by
  refine ⟨by decide, by decide, by decide, ?_, ?_⟩
  · exact (((parse_time_to_seconds_cases.2.2 "1:05.39" (by decide)).1
      (by decide)).2 "1" "05.39" (by decide)).2 (mkRat 1 1) (mkRat 539 100)
      (by decide) (by decide)
  · exact ((parse_time_to_seconds_cases.2.2 "1:2:3" (by decide)).1
      (by decide)).1 (by decide)

/-- Claim C10: `parse_time_to_seconds` deletes every asterisk, wherever it
occurs: the result on `s` equals the result on `s` with all `*` removed,
and in particular the embedded-asterisk time `2:1*6.19` still decodes to
`136.19` rather than `none`. -/
theorem parse_time_removes_all_asterisks :
    (∀ s : String, parse_time_to_seconds (some s) =
      parse_time_to_seconds (some (removeStars s))) ∧
    parse_time_to_seconds (some "2:1*6.19") = some ((13619 : ℚ) / 100) := by
  constructor
  · intro s
    by_cases hs : s = ""
    · subst hs; rfl
    · by_cases hr : removeStars s = ""
      · simp only [parse_time_to_seconds, if_neg hs, hr, if_pos rfl]
        rw [removeStars_empty]
        decide
      · simp only [parse_time_to_seconds, if_neg hs, if_neg hr,
          removeStars_idem]
  · have h1 : parse_time_to_seconds (some "2:1*6.19") =
        some (mkRat 13619 100) := by decide
    have h2 : (mkRat 13619 100 : ℚ) = (13619 : ℚ) / 100 := by
      rw [Rat.mkRat_eq_divInt, Rat.divInt_eq_div]
      push_cast
      rfl
    rw [h1, h2]

/-! ## Validator ordering claims (C1, C2) -/

/-- Under the column-count, event-grammar and time-grammar checks,
`is_data_row` reduces to the two ordering walks. -/
theorem is_data_row_orders (row : List String) (hlen : row.length = 13)
    (hev : eventPatternMatch (row.getD 6 "") = true)
    (htime : (row.take 6 ++ row.drop 7).find?
      (fun t => t ≠ "" && !timeStdMatch t) = none) :
    is_data_row row =
      (if hasAdjRise (comparableTimes (row.take 6)) then
        (false, some "Left standards not in descending order")
      else if hasAdjFall (comparableTimes (row.drop 7)) then
        (false, some "Right standards not in ascending order")
      else (true, none)) := by
  simp only [is_data_row, hlen, hev, htime]
  norm_num

theorem hasAdjRise_eq_false_iff (l : List ℚ) :
    hasAdjRise l = false ↔ List.Chain' (· ≥ ·) l := by
  induction l with
  | nil => simp [hasAdjRise]
  | cons a t ih =>
    cases t with
    | nil => simp [hasAdjRise]
    | cons b t2 =>
      rw [List.chain'_cons, ← ih]
      simp only [hasAdjRise, Bool.or_eq_false_iff, decide_eq_false_iff_not,
        not_lt, ge_iff_le]

/-- If some later entry strictly exceeds an earlier one, an adjacent rise
exists. -/
theorem hasAdjRise_of_get_lt (l : List ℚ) (i j : Nat) (hij : i < j)
    (hi : i < l.length) (hj : j < l.length)
    (h : l.get ⟨i, hi⟩ < l.get ⟨j, hj⟩) : hasAdjRise l = true := by
  by_contra hfalse
  have hch : List.Chain' (· ≥ ·) l :=
    (hasAdjRise_eq_false_iff l).1 (Bool.eq_false_iff.2 hfalse)
  have hpw : List.Pairwise (· ≥ ·) l := List.chain'_iff_pairwise.1 hch
  have hle := List.pairwise_iff_get.1 hpw ⟨i, hi⟩ ⟨j, hj⟩ hij
  exact absurd h (not_lt.2 hle)

/-- A 13-token row passing the format checks, with a tie between the two
adjacent non-blank left values and a later rise: matches both antecedents
of claim C2, yet the validator rejects it. -/
def tieRiseRow : List String :=
  ["2:00.00", "2:00.00", "2:10.00", "", "", "", "200 FR SCY",
   "", "", "", "", "", ""]

/-- A 13-token row passing the format checks whose only non-blank left
values are an adjacent equal pair; the validator accepts it. -/
def tieOnlyRow : List String :=
  ["2:00.00", "2:00.00", "", "", "", "", "200 FR SCY",
   "", "", "", "", "", ""]

/-- Claim C2, corrected: for rows of 13 format-valid tokens the validator
accepts exactly when the decoded non-blank left values are non-increasing
and the right ones non-decreasing — so an adjacent tie never by itself
causes rejection — and whenever a later non-blank left value decodes to
more seconds than an earlier one the row is rejected. -/
theorem validator_tie_and_rise (row : List String) (hlen : row.length = 13)
    (hev : eventPatternMatch (row.getD 6 "") = true)
    (htime : (row.take 6 ++ row.drop 7).find?
      (fun t => t ≠ "" && !timeStdMatch t) = none) :
    ((is_data_row row).1 = true ↔
      (hasAdjRise (comparableTimes (row.take 6)) = false ∧
        hasAdjFall (comparableTimes (row.drop 7)) = false)) ∧
    (∀ i j, i < j →
      ∀ (hi : i < (comparableTimes (row.take 6)).length)
        (hj : j < (comparableTimes (row.take 6)).length),
        (comparableTimes (row.take 6)).get ⟨i, hi⟩ <
          (comparableTimes (row.take 6)).get ⟨j, hj⟩ →
        (is_data_row row).1 = false) := by
  have hrw := is_data_row_orders row hlen hev htime
  constructor
  · rw [hrw]
    cases hL : hasAdjRise (comparableTimes (row.take 6)) <;>
      cases hR : hasAdjFall (comparableTimes (row.drop 7)) <;> decide
  · intro i j hij hi hj hlt
    have : hasAdjRise (comparableTimes (row.take 6)) = true :=
      hasAdjRise_of_get_lt _ i j hij hi hj hlt
    rw [hrw, this]
    rfl

/-- Counterexample to claim C2 as stated: `tieRiseRow` has exactly 13
format-valid tokens and two adjacent non-blank left values decoding to
equal seconds, yet the validator rejects it (a later value also exceeds an
earlier one, which forces rejection regardless of the tie). -/
theorem validator_tie_and_rise_cex :
    tieRiseRow.length = 13 ∧
    eventPatternMatch (tieRiseRow.getD 6 "") = true ∧
    (tieRiseRow.take 6 ++ tieRiseRow.drop 7).find?
      (fun t => t ≠ "" && !timeStdMatch t) = none ∧
    tieRiseRow.getD 0 "" ≠ "" ∧ tieRiseRow.getD 1 "" ≠ "" ∧
    parse_time_to_seconds (some (tieRiseRow.getD 0 "")) =
      parse_time_to_seconds (some (tieRiseRow.getD 1 "")) ∧
    (parse_time_to_seconds (some (tieRiseRow.getD 0 ""))).isSome = true ∧
    (is_data_row tieRiseRow).1 = false := by
  decide

/-- Witness for the corrected C2: `tieOnlyRow` (an adjacent tie, nothing
out of order) satisfies the hypotheses and is accepted. -/
theorem validator_tie_and_rise_witness :
    tieOnlyRow.length = 13 ∧
    eventPatternMatch (tieOnlyRow.getD 6 "") = true ∧
    (tieOnlyRow.take 6 ++ tieOnlyRow.drop 7).find?
      (fun t => t ≠ "" && !timeStdMatch t) = none ∧
    parse_time_to_seconds (some (tieOnlyRow.getD 0 "")) =
      parse_time_to_seconds (some (tieOnlyRow.getD 1 "")) ∧
    (is_data_row tieOnlyRow).1 = true :=
  ⟨by decide, by decide, by decide, by decide,
    ((validator_tie_and_rise tieOnlyRow (by decide) (by decide)
      (by decide)).1).2 ⟨by decide, by decide⟩⟩

/-- A 13-token row passing the format checks with both a left rise and a
right fall: the reported reason is the capitalised left message only. -/
def bothBadRow : List String :=
  ["1:00.00", "2:00.00", "", "", "", "", "200 FR SCY",
   "2:00.00", "1:00.00", "", "", "", ""]

/-- Claim C1, corrected: for rows passing the earlier checks the validator
rejects with reason `"Left standards not in descending order"` exactly
when some decoded non-blank left value is less than its predecessor, and
rejects with reason `"Right standards not in ascending order"` exactly
when the left walk passes and some decoded non-blank right value exceeds
its predecessor (the reasons are capitalised, and a left failure wins). -/
theorem validator_order_reasons (row : List String) (hlen : row.length = 13)
    (hev : eventPatternMatch (row.getD 6 "") = true)
    (htime : (row.take 6 ++ row.drop 7).find?
      (fun t => t ≠ "" && !timeStdMatch t) = none) :
    (is_data_row row = (false, some "Left standards not in descending order")
      ↔ hasAdjRise (comparableTimes (row.take 6)) = true) ∧
    (is_data_row row = (false, some "Right standards not in ascending order")
      ↔ (hasAdjRise (comparableTimes (row.take 6)) = false ∧
          hasAdjFall (comparableTimes (row.drop 7)) = true)) := by
  rw [is_data_row_orders row hlen hev htime]
  cases hL : hasAdjRise (comparableTimes (row.take 6)) <;>
    cases hR : hasAdjFall (comparableTimes (row.drop 7)) <;> decide

/-- Counterexample to claim C1 as stated: on `bothBadRow` (format checks
pass, left and right walks both violated) the validator reports the
capitalised `"Left ..."` reason — not the claim's lower-case reason — and
reports no `"Right ..."` reason even though a right value exceeds its
predecessor. -/
theorem validator_order_reasons_cex :
    bothBadRow.length = 13 ∧
    eventPatternMatch (bothBadRow.getD 6 "") = true ∧
    (bothBadRow.take 6 ++ bothBadRow.drop 7).find?
      (fun t => t ≠ "" && !timeStdMatch t) = none ∧
    hasAdjRise (comparableTimes (bothBadRow.take 6)) = true ∧
    hasAdjFall (comparableTimes (bothBadRow.drop 7)) = true ∧
    is_data_row bothBadRow =
      (false, some "Left standards not in descending order") ∧
    is_data_row bothBadRow ≠
      (false, some "left standards not in descending order") ∧
    is_data_row bothBadRow ≠
      (false, some "Right standards not in ascending order") ∧
    is_data_row bothBadRow ≠
      (false, some "right standards not in ascending order") := by
  decide

/-- Witness for the corrected C1 at `bothBadRow`. -/
theorem validator_order_reasons_witness :
    bothBadRow.length = 13 ∧
    eventPatternMatch (bothBadRow.getD 6 "") = true ∧
    (bothBadRow.take 6 ++ bothBadRow.drop 7).find?
      (fun t => t ≠ "" && !timeStdMatch t) = none ∧
    ((is_data_row bothBadRow =
        (false, some "Left standards not in descending order")
      ↔ hasAdjRise (comparableTimes (bothBadRow.take 6)) = true) ∧
    (is_data_row bothBadRow =
        (false, some "Right standards not in ascending order")
      ↔ (hasAdjRise (comparableTimes (bothBadRow.take 6)) = false ∧
          hasAdjFall (comparableTimes (bothBadRow.drop 7)) = true))) :=
  ⟨by decide, by decide, by decide,
    validator_order_reasons bothBadRow (by decide) (by decide) (by decide)⟩

/-! ## Scanner structural lemmas -/

/-- `processCleaned` never touches the context variables. -/
theorem processCleaned_contexts (cleaned : List String) (i : Nat)
    (st st2 : ScanState) (h : processCleaned cleaned i st = .ok st2) :
    st2.left_context = st.left_context ∧
      st2.right_context = st.right_context := by
  simp only [processCleaned] at h
  by_cases hv : (is_data_row cleaned).1 = true
  · rw [if_pos hv] at h
    split at h
    · obtain rfl := (Except.ok.inj h).symm
      exact ⟨rfl, rfl⟩
    · split at h
      · exact absurd h (by simp)
      · split at h
        · exact absurd h (by simp)
        · obtain rfl := (Except.ok.inj h).symm
          constructor <;> split <;> (try split) <;> rfl
  · rw [if_neg hv] at h
    obtain rfl := (Except.ok.inj h).symm
    exact ⟨rfl, rfl⟩

/-- For token lists covered by the label list, the non-blank filter of the
zip is empty exactly when every token is blank. -/
theorem zip_filter_nonBlank_eq_nil (labels toks : List String)
    (h : toks.length ≤ labels.length) :
    ((labels.zip toks).filter nonBlank = [] ↔ ∀ t ∈ toks, t = "") := by
  induction toks generalizing labels with
  | nil => simp
  | cons t ts ih =>
    cases labels with
    | nil => simp at h
    | cons lb lbs =>
      have hlen : ts.length ≤ lbs.length := by
        simp only [List.length_cons] at h
        omega
      by_cases ht : t = ""
      · subst ht
        simp [nonBlank, List.filter_cons, ih lbs hlen, List.forall_mem_cons]
      · simp [nonBlank, List.filter_cons, ht, List.forall_mem_cons]

/-- Claim C8: for a validated row processed with both contexts set (and
each context splitting into age and gender), the builder appends exactly
one left record when some left token is non-blank and none when all are
blank — the record's standards being exactly the non-blank label/time
pairs in `B..AAAA` order — and symmetrically on the right with the
reversed labels; an all-blank side yields no record at all. -/
theorem record_builder_cardinality (cleaned : List String) (i : Nat)
    (st : ScanState) (lc rc la lg ra rg : String)
    (hvalid : (is_data_row cleaned).1 = true)
    (hctx : ctxPair st.left_context st.right_context = some (lc, rc))
    (hl : pyRsplitSpace1 lc = some (la, lg))
    (hr : pyRsplitSpace1 rc = some (ra, rg)) :
    processCleaned cleaned i st = .ok {st with structured :=
      st.structured ++
        (if (CUT_ORDER_LABELS_LEFT.zip (cleaned.take 6)).filter
            nonBlank = [] then []
         else [⟨la, lg, cleaned.getD 6 "",
           (CUT_ORDER_LABELS_LEFT.zip (cleaned.take 6)).filter
             nonBlank⟩]) ++
        (if (CUT_ORDER_LABELS_RIGHT.zip (cleaned.drop 7)).filter
            nonBlank = [] then []
         else [⟨ra, rg, cleaned.getD 6 "",
           (CUT_ORDER_LABELS_RIGHT.zip (cleaned.drop 7)).filter
             nonBlank⟩])} ∧
    ((CUT_ORDER_LABELS_LEFT.zip (cleaned.take 6)).filter
        nonBlank = [] ↔ ∀ t ∈ cleaned.take 6, t = "") ∧
    ((CUT_ORDER_LABELS_RIGHT.zip (cleaned.drop 7)).filter
        nonBlank = [] ↔ ∀ t ∈ cleaned.drop 7, t = "") := by
  have hlen : cleaned.length = 13 := by
    by_contra hne
    rw [is_data_row, if_pos hne] at hvalid
    exact absurd hvalid (by decide)
  refine ⟨?_, ?_, ?_⟩
  · simp only [processCleaned, hvalid, hctx, hl, hr, if_true]
    rcases hL : (CUT_ORDER_LABELS_LEFT.zip (cleaned.take 6)).filter
        nonBlank with _ | ⟨pl, tl⟩ <;>
      rcases hR : (CUT_ORDER_LABELS_RIGHT.zip (cleaned.drop 7)).filter
        nonBlank with _ | ⟨pr, tr⟩ <;>
      simp [hL, hR]
  · exact zip_filter_nonBlank_eq_nil CUT_ORDER_LABELS_LEFT (cleaned.take 6)
      (by simp [List.length_take, hlen, CUT_ORDER_LABELS_LEFT])
  · exact zip_filter_nonBlank_eq_nil CUT_ORDER_LABELS_RIGHT (cleaned.drop 7)
      (by simp [List.length_drop, hlen, CUT_ORDER_LABELS_RIGHT])

/-- A validated row with a blank first and last token, for exercising the
builder. -/
def builderRow : List String :=
  ["", "2:55.89", "2:42.59", "2:35.99", "2:29.39", "2:22.79", "200 FR SCY",
   "2:16.19", "2:22.59", "2:35.39", "2:48.19", "3:00.99", ""]

/-- A scanner state with the `10 Girls` / `10 Boys` contexts set. -/
def builderState : ScanState := ⟨[], [], some "10 Girls", some "10 Boys"⟩

/-- Witness for C8: the record builder applied to `builderRow` in
`builderState`. -/
theorem record_builder_cardinality_witness :
    processCleaned builderRow 0 builderState = .ok {builderState with
      structured := builderState.structured ++
        (if (CUT_ORDER_LABELS_LEFT.zip (builderRow.take 6)).filter
            nonBlank = [] then []
         else [⟨"10", "Girls", builderRow.getD 6 "",
           (CUT_ORDER_LABELS_LEFT.zip (builderRow.take 6)).filter
             nonBlank⟩]) ++
        (if (CUT_ORDER_LABELS_RIGHT.zip (builderRow.drop 7)).filter
            nonBlank = [] then []
         else [⟨"10", "Boys", builderRow.getD 6 "",
           (CUT_ORDER_LABELS_RIGHT.zip (builderRow.drop 7)).filter
             nonBlank⟩])} :=
  (record_builder_cardinality builderRow 0 builderState "10 Girls" "10 Boys"
    "10" "Girls" "10" "Boys" (by decide) (by decide) (by decide)
    (by decide)).1

/-- One scan step either leaves both context variables untouched or — on a
line fully matching the age/gender header pattern — overwrites both
together with the matched pair. -/
theorem scanBody_contexts (line : String) (la : Option String) (i : Nat)
    (st st2 : ScanState) (two : Bool)
    (h : scanBody line la i st = .ok (st2, two)) :
    (st2.left_context = st.left_context ∧
      st2.right_context = st.right_context) ∨
    (∃ l r, parse_age_gender_header line = some (l, r) ∧
      st2.left_context = some l ∧ st2.right_context = some r) := by
  simp only [scanBody] at h
  by_cases hj : isJunkLine line = true
  · rw [if_pos hj] at h
    injection Except.ok.inj h with hst _; subst hst; exact Or.inl ⟨rfl, rfl⟩
  · rw [if_neg hj] at h
    rcases hh : parse_age_gender_header line with _ | ⟨l, r⟩ <;>
      simp only [hh] at h
    · by_cases hcl : (clean_row (pySplit line)).isEmpty = true <;>
        [rw [if_pos hcl] at h; rw [if_neg hcl] at h]
      · injection Except.ok.inj h with hst _; subst hst
        exact Or.inl ⟨rfl, rfl⟩
      · by_cases hcut : is_cut_order_header_row
            (fuseRelay (clean_row (pySplit line)) la).1 = true <;>
          [rw [if_pos hcut] at h; rw [if_neg hcut] at h]
        · injection Except.ok.inj h with hst _; subst hst
          exact Or.inl ⟨rfl, rfl⟩
        · rcases hpc : processCleaned
              (fuseRelay (clean_row (pySplit line)) la).1 i st with _ | st3 <;>
            rw [hpc] at h
          · exact absurd h (by simp [Except.map])
          · simp only [Except.map] at h
            injection Except.ok.inj h with hst _; subst hst
            exact Or.inl (processCleaned_contexts _ _ _ _ hpc)
    · injection Except.ok.inj h with hst _; subst hst
      exact Or.inr ⟨l, r, rfl, rfl, rfl⟩

/-- Claim C7: the two demographic-context variables are only ever changed
by a line fully matching the age/gender header pattern, and such a match
overwrites both sides together; consequently, along any scan the contexts
are either both unset or both set. -/
theorem context_update_discipline :
    (∀ line la i st st2 two, scanBody line la i st = .ok (st2, two) →
      (st2.left_context = st.left_context ∧
        st2.right_context = st.right_context) ∨
      (∃ l r, parse_age_gender_header line = some (l, r) ∧
        st2.left_context = some l ∧ st2.right_context = some r)) ∧
    (∀ lines i st st', scanLoop lines i st = .ok st' →
      (st.left_context = none ↔ st.right_context = none) →
      (st'.left_context = none ↔ st'.right_context = none)) := by
  refine ⟨scanBody_contexts, ?_⟩
  intro lines i st
  induction lines, i, st using scanLoop.induct with
  | case1 i st =>
    intro st' h hp
    obtain rfl := Except.ok.inj h
    exact hp
  | case2 line i st e heq =>
    intro st' h hp
    simp [scanLoop, heq] at h
  | case3 line i st st2 snd heq =>
    intro st' h hp
    simp only [scanLoop, heq] at h
    obtain rfl := Except.ok.inj h
    rcases scanBody_contexts _ _ _ _ _ _ heq with ⟨h1, h2⟩ | ⟨l, r, _, h1, h2⟩
    · rw [h1, h2]; exact hp
    · rw [h1, h2]; simp
  | case4 line next rest i st e heq =>
    intro st' h hp
    simp [scanLoop, heq] at h
  | case5 line next rest i st st2 heq ih =>
    intro st' h hp
    simp only [scanLoop, heq] at h
    refine ih st' h ?_
    rcases scanBody_contexts _ _ _ _ _ _ heq with ⟨h1, h2⟩ | ⟨l, r, _, h1, h2⟩
    · rw [h1, h2]; exact hp
    · rw [h1, h2]; simp
  | case6 line next rest i st st2 heq ih =>
    intro st' h hp
    simp only [scanLoop, heq] at h
    refine ih st' h ?_
    rcases scanBody_contexts _ _ _ _ _ _ heq with ⟨h1, h2⟩ | ⟨l, r, _, h1, h2⟩
    · rw [h1, h2]; exact hp
    · rw [h1, h2]; simp

/-- Witness for C7: a concrete header line updates both contexts together,
and pairedness carries from the initial state to the final state. -/
theorem context_update_discipline_witness :
    scanBody "10 Girls Event 10 Boys" none 0 initState =
      .ok (builderState, false) ∧
    ((builderState.left_context = initState.left_context ∧
      builderState.right_context = initState.right_context) ∨
     (∃ l r, parse_age_gender_header "10 Girls Event 10 Boys" =
        some (l, r) ∧ builderState.left_context = some l ∧
        builderState.right_context = some r)) ∧
    scanLoop ["10 Girls Event 10 Boys"] 0 initState = .ok builderState ∧
    (builderState.left_context = none ↔ builderState.right_context = none) :=
  ⟨by decide,
   context_update_discipline.1 _ none 0 initState builderState false
     (by decide),
   by decide,
   context_update_discipline.2 ["10 Girls Event 10 Boys"] 0 initState
     builderState (by decide) (by decide)⟩

/-! ## Accumulator decomposition: the records and flagged rows already
collected never influence the rest of the scan -/

theorem processCleaned_accum (cleaned : List String) (i : Nat)
    (st : ScanState) (d : List DataRecord)
    (f : List (List String × Option String × Nat)) :
    processCleaned cleaned i ⟨d ++ st.structured, f ++ st.flagged,
        st.left_context, st.right_context⟩ =
      (processCleaned cleaned i st).map
        (fun s => ⟨d ++ s.structured, f ++ s.flagged,
          s.left_context, s.right_context⟩) := by
  simp only [processCleaned]
  by_cases hv : (is_data_row cleaned).1 = true
  · rw [if_pos hv, if_pos hv]
    rcases hctx : ctxPair st.left_context st.right_context with _ | ⟨lc, rc⟩ <;>
      simp only [hctx]
    · simp [Except.map, List.append_assoc]
    · rcases hl : pyRsplitSpace1 lc with _ | ⟨la, lg⟩ <;> simp only [hl]
      · simp [Except.map]
      rcases hr : pyRsplitSpace1 rc with _ | ⟨ra, rg⟩ <;> simp only [hr]
      · simp [Except.map]
      · by_cases hL : ((CUT_ORDER_LABELS_LEFT.zip (cleaned.take 6)).filter
            nonBlank).isEmpty = true <;>
          by_cases hR : ((CUT_ORDER_LABELS_RIGHT.zip
            (cleaned.drop 7)).filter nonBlank).isEmpty = true <;>
          simp [hL, hR, Except.map, List.append_assoc]
  · rw [if_neg hv, if_neg hv]
    simp [Except.map, List.append_assoc]

theorem scanBody_accum (line : String) (la : Option String) (i : Nat)
    (st : ScanState) (d : List DataRecord)
    (f : List (List String × Option String × Nat)) :
    scanBody line la i ⟨d ++ st.structured, f ++ st.flagged,
        st.left_context, st.right_context⟩ =
      (scanBody line la i st).map
        (fun p => (⟨d ++ p.1.structured, f ++ p.1.flagged,
          p.1.left_context, p.1.right_context⟩, p.2)) := by
  simp only [scanBody]
  by_cases hj : isJunkLine line = true
  · rw [if_pos hj, if_pos hj]
    simp [Except.map]
  · rw [if_neg hj, if_neg hj]
    rcases hh : parse_age_gender_header line with _ | ⟨l, r⟩ <;>
      simp only [hh]
    · by_cases hcl : (clean_row (pySplit line)).isEmpty = true <;>
        simp only [hcl, if_true, if_false]
      · simp [Except.map]
      · by_cases hcut : is_cut_order_header_row
            (fuseRelay (clean_row (pySplit line)) la).1 = true <;>
          simp only [hcut, if_true, if_false]
        · simp [Except.map]
        · rw [processCleaned_accum]
          rcases processCleaned
              (fuseRelay (clean_row (pySplit line)) la).1 i st with _ | st3 <;>
            simp [Except.map]
    · simp [Except.map]

theorem scanLoop_accum (lines : List String) (i : Nat) (st : ScanState) :
    ∀ (d : List DataRecord) (f : List (List String × Option String × Nat)),
    scanLoop lines i ⟨d ++ st.structured, f ++ st.flagged,
        st.left_context, st.right_context⟩ =
      (scanLoop lines i st).map
        (fun s => ⟨d ++ s.structured, f ++ s.flagged,
          s.left_context, s.right_context⟩) := by
  induction lines, i, st using scanLoop.induct with
  | case1 i st =>
    intro d f
    simp [scanLoop, Except.map]
  | case2 line i st e heq =>
    intro d f
    rw [scanLoop, scanLoop, scanBody_accum, heq]
    simp [Except.map]
  | case3 line i st st2 snd heq =>
    intro d f
    rw [scanLoop, scanLoop, scanBody_accum, heq]
    simp [Except.map]
  | case4 line next rest i st e heq =>
    intro d f
    rw [scanLoop, scanLoop, scanBody_accum, heq]
    simp [Except.map]
  | case5 line next rest i st st2 heq ih =>
    intro d f
    rw [scanLoop, scanLoop, scanBody_accum, heq]
    simp only [Except.map]
    exact ih d f
  | case6 line next rest i st st2 heq ih =>
    intro d f
    rw [scanLoop, scanLoop, scanBody_accum, heq]
    simp only [Except.map]
    exact ih d f

/-- The 13 logical tokens of a valid data row used in the missing-context
scenario (the raw line merges `200 FR SCY` into one event token). -/
def loneDataRow : List String :=
  ["59.49", "58.49", "57.49", "56.49", "55.49", "54.49", "200 FR SCY",
   "53.49", "54.59", "55.69", "56.79", "57.89", "58.99"]

/-- Claim C5, corrected: a valid data row reaching the builder while the
context pair fails Python's truthiness test is appended to the flagged
list with reason `"Data row found without age/gender context"`, leaving
the records, the contexts and everything else unchanged; and the flagged
list never feeds back into parsing — the record output of any scan is
independent of the flagged rows accumulated so far, so the row is dropped
for good even when a context header arrives later. -/
theorem missing_context_drop :
    (∀ cleaned i st, (is_data_row cleaned).1 = true →
      ctxPair st.left_context st.right_context = none →
      processCleaned cleaned i st = .ok {st with flagged := st.flagged ++
        [(cleaned, some "Data row found without age/gender context",
          i + 1)]}) ∧
    (∀ lines i d f f' l r,
      (scanLoop lines i ⟨d, f, l, r⟩).map ScanState.structured =
      (scanLoop lines i ⟨d, f', l, r⟩).map ScanState.structured) := by
  constructor
  · intro cleaned i st hv hctx
    simp only [processCleaned, hv, if_true, hctx]
  · intro lines i d f f' l r
    have h1 := scanLoop_accum lines i ⟨[], [], l, r⟩ d f
    have h2 := scanLoop_accum lines i ⟨[], [], l, r⟩ d f'
    simp only [List.append_nil] at h1 h2
    rw [h1, h2]
    rcases scanLoop lines i ⟨[], [], l, r⟩ with _ | s <;> simp [Except.map]

/-- Counterexample to claim C5 as stated: in a scan where the valid data
row precedes the only context header, the row is flagged with the code's
reason string — which is not the claim's quoted `"missing context"` — and
produces zero records even though the header later arrives. -/
theorem missing_context_drop_cex :
    scanFull
      ["59.49 58.49 57.49 56.49 55.49 54.49 200 FR SCY 53.49 54.59 55.69 56.79 57.89 58.99",
       "10 Girls Event 10 Boys"] =
      .ok ⟨[], [(loneDataRow,
        some "Data row found without age/gender context", 1)],
        some "10 Girls", some "10 Boys"⟩ ∧
    some "Data row found without age/gender context" ≠
      some "missing context" := by
  constructor
  · decide
  · decide

/-- Witness for the corrected C5 at a concrete row and the initial
(contextless) state. -/
theorem missing_context_drop_witness :
    (is_data_row loneDataRow).1 = true ∧
    ctxPair initState.left_context initState.right_context = none ∧
    processCleaned loneDataRow 0 initState =
      .ok {initState with flagged := initState.flagged ++
        [(loneDataRow,
          some "Data row found without age/gender context", 0 + 1)]} :=
  ⟨by decide, by decide,
    missing_context_drop.1 loneDataRow 0 initState (by decide) (by decide)⟩

/-! ## Split-relay reassembly (C4) -/

/-- A row whose length is neither 13 nor 12 is not the cut-order header. -/
theorem is_cut_order_header_row_of_length (row : List String)
    (h13 : row.length ≠ 13) (h12 : row.length ≠ 12) :
    is_cut_order_header_row row = false := by
  simp only [is_cut_order_header_row, Bool.or_eq_false_iff,
    decide_eq_false_iff_not]
  constructor <;> intro he <;> apply_fun List.length at he <;> simp at he <;>
    omega

/-- A 13-token row whose middle token contains a space is not the
cut-order header (the reference rows' tokens are space-free). -/
theorem is_cut_order_header_row_mid_space (A B : List String) (e : String)
    (hA : A.length = 6) (he : ' ' ∈ e.data) :
    is_cut_order_header_row (A ++ [e] ++ B) = false := by
  have key : ∀ (L : List String), A ++ [e] ++ B = L → e = L.getD 6 "" := by
    intro L hEq
    have h6 : (A ++ ([e] ++ B)).getD 6 "" = L.getD 6 "" := by
      rw [← List.append_assoc, hEq]
    rw [List.getD_append_right A ([e] ++ B) "" 6 (by omega)] at h6
    simpa [hA] using h6
  simp only [is_cut_order_header_row, Bool.or_eq_false_iff,
    decide_eq_false_iff_not]
  constructor <;> intro hEq
  · rw [key _ hEq] at he
    exact absurd he (by decide)
  · rw [key _ hEq] at he
    exact absurd he (by decide)

/-- Claim C4: on a surviving line whose merged row has exactly 14 tokens
with an all-digits token 6 and a relay-code token 7 — if the next raw
line independently merges to exactly one valid course code, the scanner
rebuilds the 13-token row with the fused event descriptor
`token6 ++ " " ++ token7 ++ " " ++ course` and continues two lines ahead;
otherwise the unchanged 14-token row fails the column-count check and is
appended to the flagged list, the cursor advancing one line. -/
theorem split_relay_scan (line next : String) (rest : List String)
    (i : Nat) (st : ScanState)
    (hj : isJunkLine line = false)
    (hh : parse_age_gender_header line = none)
    (h14 : (clean_row (pySplit line)).length = 14)
    (hd : isDigitStr ((clean_row (pySplit line)).getD 6 "") = true)
    (hrel : relayCodes.contains ((clean_row (pySplit line)).getD 7 "") =
      true) :
    (∀ c, clean_row (pySplit next) = [c] → courseCodes.contains c = true →
      scanLoop (line :: next :: rest) i st =
        (processCleaned ((clean_row (pySplit line)).take 6 ++
            [(clean_row (pySplit line)).getD 6 "" ++ " " ++
              (clean_row (pySplit line)).getD 7 "" ++ " " ++ c] ++
            (clean_row (pySplit line)).drop 8) i st).bind
          (fun st2 => scanLoop rest (i + 2) st2)) ∧
    ((∀ c, clean_row (pySplit next) = [c] →
        courseCodes.contains c = false) →
      scanLoop (line :: next :: rest) i st =
        scanLoop (next :: rest) (i + 1)
          {st with flagged := st.flagged ++
            [(clean_row (pySplit line),
              some "Incorrect number of columns", i + 1)]}) := by
  have hclne : (clean_row (pySplit line)).isEmpty = false := by
    rcases h : clean_row (pySplit line) with _ | ⟨a, t⟩
    · rw [h] at h14; simp at h14
    · rfl
  have hcond : ((clean_row (pySplit line)).length == 14 &&
      isDigitStr ((clean_row (pySplit line)).getD 6 "") &&
      relayCodes.contains ((clean_row (pySplit line)).getD 7 "")) = true := by
    rw [h14, hd, hrel]
    decide
  constructor
  · intro c hnext hc
    have hfuse : fuseRelay (clean_row (pySplit line)) (some next) =
        ((clean_row (pySplit line)).take 6 ++
          [(clean_row (pySplit line)).getD 6 "" ++ " " ++
            (clean_row (pySplit line)).getD 7 "" ++ " " ++ c] ++
          (clean_row (pySplit line)).drop 8, true) := by
      rw [fuseRelay, if_pos hcond, hnext]
      simp only [hc]
      exact if_pos trivial
    have hcut : is_cut_order_header_row
        ((clean_row (pySplit line)).take 6 ++
          [(clean_row (pySplit line)).getD 6 "" ++ " " ++
            (clean_row (pySplit line)).getD 7 "" ++ " " ++ c] ++
          (clean_row (pySplit line)).drop 8) = false := by
      refine is_cut_order_header_row_mid_space _ _ _
        (by rw [List.length_take, h14]; omega) ?_
      show ' ' ∈ (String.data _)
      have hdata : ((clean_row (pySplit line)).getD 6 "" ++ " " ++
          (clean_row (pySplit line)).getD 7 "" ++ " " ++ c).data =
        ((clean_row (pySplit line)).getD 6 "").data ++ [' '] ++
          ((clean_row (pySplit line)).getD 7 "").data ++ [' '] ++
          c.data := rfl
      rw [hdata]
      simp
    have hbody : scanBody line (some next) i st =
        (processCleaned ((clean_row (pySplit line)).take 6 ++
          [(clean_row (pySplit line)).getD 6 "" ++ " " ++
            (clean_row (pySplit line)).getD 7 "" ++ " " ++ c] ++
          (clean_row (pySplit line)).drop 8) i st).map
          (fun st2 => (st2, true)) := by
      rw [scanBody, if_neg (by rw [hj]; exact Bool.false_ne_true)]
      simp only [hh, hclne, Bool.false_eq_true, if_false, hfuse, hcut]
    rw [scanLoop, hbody]
    rcases processCleaned ((clean_row (pySplit line)).take 6 ++
        [(clean_row (pySplit line)).getD 6 "" ++ " " ++
          (clean_row (pySplit line)).getD 7 "" ++ " " ++ c] ++
        (clean_row (pySplit line)).drop 8) i st with e | st2 <;>
      simp [Except.map, Except.bind]
  · intro hno
    have hfuse : fuseRelay (clean_row (pySplit line)) (some next) =
        (clean_row (pySplit line), false) := by
      rw [fuseRelay, if_pos hcond]
      rcases hn : clean_row (pySplit next) with _ | ⟨c, t⟩
      · rfl
      rcases t with _ | ⟨c2, t2⟩
      · have hcm : c ∉ courseCodes := by
          have := hno c hn
          simpa using this
        simp [hcm]
      · rfl
    have hcut : is_cut_order_header_row (clean_row (pySplit line)) = false :=
      is_cut_order_header_row_of_length _ (by omega) (by omega)
    have hinv : is_data_row (clean_row (pySplit line)) =
        (false, some "Incorrect number of columns") := by
      rw [is_data_row, if_pos (by omega)]
    have hbody : scanBody line (some next) i st =
        .ok ({st with flagged := st.flagged ++
          [(clean_row (pySplit line),
            some "Incorrect number of columns", i + 1)]}, false) := by
      rw [scanBody, if_neg (by rw [hj]; exact Bool.false_ne_true)]
      simp only [hh, hclne, Bool.false_eq_true, if_false, hfuse, hcut]
      simp only [processCleaned, hinv, Bool.false_eq_true, if_false]
      rfl
    rw [scanLoop, hbody]

/-- The raw first physical line of a split relay row: 14 logical tokens,
token 6 `200` (all digits), token 7 `MED-R` (a relay code). -/
def relayLine : String :=
  "59.49 58.49 57.49 56.49 55.49 54.49 200 MED-R 53.49 54.59 55.69 56.79 57.89 58.99"

/-- Witness for C4 at a concrete split relay row whose lookahead line is
`SCY`. -/
theorem split_relay_scan_witness :
    isJunkLine relayLine = false ∧
    parse_age_gender_header relayLine = none ∧
    (clean_row (pySplit relayLine)).length = 14 ∧
    isDigitStr ((clean_row (pySplit relayLine)).getD 6 "") = true ∧
    relayCodes.contains ((clean_row (pySplit relayLine)).getD 7 "") = true ∧
    clean_row (pySplit "SCY") = ["SCY"] ∧
    courseCodes.contains "SCY" = true ∧
    scanLoop [relayLine, "SCY"] 0 builderState =
      (processCleaned ((clean_row (pySplit relayLine)).take 6 ++
          [(clean_row (pySplit relayLine)).getD 6 "" ++ " " ++
            (clean_row (pySplit relayLine)).getD 7 "" ++ " " ++ "SCY"] ++
          (clean_row (pySplit relayLine)).drop 8) 0 builderState).bind
        (fun st2 => scanLoop [] (0 + 2) st2) :=
  ⟨by decide, by decide, by decide, by decide, by decide, by decide,
    by decide,
    (split_relay_scan relayLine "SCY" [] 0 builderState (by decide)
      (by decide) (by decide) (by decide) (by decide)).1 "SCY" (by decide)
      (by decide)⟩

/-! ## Totality of the scan (C9)

The only modelled error path is the `rsplit(' ', 1)` unpacking; it is
unreachable because every context ever stored comes from the header
pattern, whose reconstructed strings always contain a space. -/

/-- Every context string the scan can store contains a space. -/
def GoodCtx (st : ScanState) : Prop :=
  (∀ s, st.left_context = some s → ' ' ∈ s.data) ∧
  (∀ s, st.right_context = some s → ' ' ∈ s.data)

theorem parse_age_gender_header_space (line : String) (l r : String)
    (h : parse_age_gender_header line = some (l, r)) :
    ' ' ∈ l.data ∧ ' ' ∈ r.data := by
  unfold parse_age_gender_header at h
  obtain ⟨p, _, hf⟩ := List.exists_of_findSome?_eq_some h
  dsimp only at hf
  split at hf
  · exact absurd hf (by simp)
  · split at hf
    · exact absurd hf (by simp)
    · split at hf
      · exact absurd hf (by simp)
      · split at hf
        · rename_i a2 g2 _
          injection hf with hpair
          injection hpair with hl hr
          subst hl
          subst hr
          constructor <;> simp
        · exact absurd hf (by simp)

theorem dropWhile_until_space (l : List Char) (h : ' ' ∈ l) :
    ∃ t, l.dropWhile (fun c => c ≠ ' ') = ' ' :: t := by
  induction l with
  | nil => cases h
  | cons a t ih =>
    by_cases ha : a = ' '
    · subst ha
      refine ⟨t, ?_⟩
      rw [List.dropWhile_cons, if_neg (by simp)]
    · have hmem : ' ' ∈ t := by
        rcases List.mem_cons.1 h with h1 | h1
        · exact absurd h1.symm ha
        · exact h1
      obtain ⟨t2, ht2⟩ := ih hmem
      refine ⟨t2, ?_⟩
      rw [List.dropWhile_cons, if_pos (by simp [ha]), ht2]

theorem pyRsplitSpace1_isSome (s : String) (h : ' ' ∈ s.data) :
    ∃ a b, pyRsplitSpace1 s = some (a, b) := by
  obtain ⟨t, ht⟩ := dropWhile_until_space s.data.reverse (List.mem_reverse.2 h)
  simp only [pyRsplitSpace1, ht]
  exact ⟨_, _, rfl⟩

/-- `ctxPair` inversion. -/
theorem ctxPair_eq_some {a b : Option String} {l r : String}
    (h : ctxPair a b = some (l, r)) : a = some l ∧ b = some r := by
  rcases a with _ | a <;> rcases b with _ | b
  · exact absurd h (by simp [ctxPair])
  · exact absurd h (by simp [ctxPair])
  · exact absurd h (by simp [ctxPair])
  · simp only [ctxPair] at h
    split_ifs at h with hc
    injection h with hpair
    injection hpair with h1 h2
    subst h1
    subst h2
    exact ⟨rfl, rfl⟩

theorem processCleaned_ok_of_good (cleaned : List String) (i : Nat)
    (st : ScanState) (hg : GoodCtx st) :
    ∃ st2, processCleaned cleaned i st = .ok st2 := by
  rcases hres : processCleaned cleaned i st with e | st2
  · exfalso
    by_cases hv : (is_data_row cleaned).1 = true
    · rcases hctx : ctxPair st.left_context st.right_context with
        _ | ⟨lc, rc⟩
      · simp only [processCleaned, hv, if_true, hctx] at hres
        exact Except.noConfusion hres
      · obtain ⟨hlc, hrc⟩ := ctxPair_eq_some hctx
        obtain ⟨la, lg, hl⟩ := pyRsplitSpace1_isSome lc (hg.1 lc hlc)
        obtain ⟨ra, rg, hr⟩ := pyRsplitSpace1_isSome rc (hg.2 rc hrc)
        simp only [processCleaned, hv, if_true, hctx, hl, hr] at hres
        exact Except.noConfusion hres
    · simp only [processCleaned] at hres
      rw [if_neg hv] at hres
      exact Except.noConfusion hres
  · exact ⟨st2, rfl⟩

theorem scanBody_ok_of_good (line : String) (la : Option String) (i : Nat)
    (st : ScanState) (hg : GoodCtx st) :
    ∃ st2 two, scanBody line la i st = .ok (st2, two) ∧ GoodCtx st2 := by
  simp only [scanBody]
  by_cases hj : isJunkLine line = true
  · rw [if_pos hj]
    exact ⟨st, false, rfl, hg⟩
  · rw [if_neg hj]
    rcases hh : parse_age_gender_header line with _ | ⟨l, r⟩ <;>
      simp only [hh]
    · by_cases hcl : (clean_row (pySplit line)).isEmpty = true <;>
        simp only [hcl, if_true, if_false]
      · exact ⟨st, false, rfl, hg⟩
      · by_cases hcut : is_cut_order_header_row
            (fuseRelay (clean_row (pySplit line)) la).1 = true <;>
          simp only [hcut, if_true, if_false]
        · exact ⟨st, _, rfl, hg⟩
        · obtain ⟨st2, hok⟩ := processCleaned_ok_of_good
            (fuseRelay (clean_row (pySplit line)) la).1 i st hg
          obtain ⟨hlc, hrc⟩ := processCleaned_contexts _ _ _ _ hok
          refine ⟨st2, _, by rw [hok]; rfl, ?_⟩
          exact ⟨fun s hs => hg.1 s (hlc ▸ hs), fun s hs => hg.2 s (hrc ▸ hs)⟩
    · obtain ⟨hls, hrs⟩ := parse_age_gender_header_space line l r hh
      refine ⟨_, false, rfl, ?_⟩
      constructor
      · intro s hs
        cases Option.some.inj hs
        exact hls
      · intro s hs
        cases Option.some.inj hs
        exact hrs

theorem scanLoop_ok_of_good (lines : List String) (i : Nat)
    (st : ScanState) :
    GoodCtx st → ∃ st', scanLoop lines i st = .ok st' := by
  induction lines, i, st using scanLoop.induct with
  | case1 i st => exact fun _ => ⟨st, rfl⟩
  | case2 line i st e heq =>
    intro hg
    obtain ⟨st2, two, hok, _⟩ := scanBody_ok_of_good line none i st hg
    rw [heq] at hok
    exact absurd hok (by simp)
  | case3 line i st st2 snd heq =>
    intro hg
    exact ⟨st2, by rw [scanLoop, heq]⟩
  | case4 line next rest i st e heq =>
    intro hg
    obtain ⟨st2, two, hok, _⟩ := scanBody_ok_of_good line (some next) i st hg
    rw [heq] at hok
    exact absurd hok (by simp)
  | case5 line next rest i st st2 heq ih =>
    intro hg
    obtain ⟨st3, two, hok, hg3⟩ := scanBody_ok_of_good line (some next) i st hg
    rw [heq] at hok
    injection Except.ok.inj hok with h1 h2
    obtain ⟨st', hst'⟩ := ih (h1 ▸ hg3)
    exact ⟨st', by rw [scanLoop, heq]; exact hst'⟩
  | case6 line next rest i st st2 heq ih =>
    intro hg
    obtain ⟨st3, two, hok, hg3⟩ := scanBody_ok_of_good line (some next) i st hg
    rw [heq] at hok
    injection Except.ok.inj hok with h1 h2
    obtain ⟨st', hst'⟩ := ih (h1 ▸ hg3)
    exact ⟨st', by rw [scanLoop, heq]; exact hst'⟩

/-- Claim C9: the core scan is total — for every finite list of input
strings, however malformed, `parse_and_structure_data` terminates (it is a
total Lean function) and returns a record list, never reaching the
modelled exception path. -/
theorem scan_never_raises (lines : List String) :
    ∃ recs, parse_and_structure_data lines = .ok recs := by
  have hg : GoodCtx initState := by
    constructor
    · intro s hs
      exact absurd hs (by simp [initState])
    · intro s hs
      exact absurd hs (by simp [initState])
  obtain ⟨st', h⟩ := scanLoop_ok_of_good lines 0 initState hg
  exact ⟨st'.structured, by
    simp [parse_and_structure_data, scanFull, h, Except.map]⟩

/-! ## TokenMerger idempotence (C3): character-level facts -/

theorem data_append (a b : String) : (a ++ b).data = a.data ++ b.data := rfl

theorem contains_mem {l : List String} {a : String} :
    l.contains a = true ↔ a ∈ l := List.elem_iff

theorem isDigitStr_false_of_mem {s : String} {c : Char} (hc : c ∈ s.data)
    (hcd : c.isDigit = false) : isDigitStr s = false := by
  have h1 : s.data.all Char.isDigit = false := by
    cases hall : s.data.all Char.isDigit
    · rfl
    · exact absurd (List.all_eq_true.1 hall c hc) (by simp [hcd])
  simp [isDigitStr, h1]

theorem timeTail_chars {cs : List Char} (h : timeTail cs = true) :
    ∀ c ∈ cs, c.isDigit = true ∨ c = '.' := by
  unfold timeTail at h
  split at h
  · rename_i a b dot c d
    simp only [Bool.and_eq_true, decide_eq_true_eq] at h
    obtain ⟨⟨⟨⟨h1, h2⟩, h3⟩, h4⟩, h5⟩ := h
    intro x hx
    simp only [List.mem_cons, List.not_mem_nil, or_false] at hx
    rcases hx with rfl | rfl | rfl | rfl | rfl
    · exact Or.inl h1
    · exact Or.inl h2
    · exact Or.inr h3
    · exact Or.inl h4
    · exact Or.inl h5
  · exact absurd h (by simp)

theorem timeBody_chars {cs : List Char} (h : timeBody cs = true) :
    ∀ c ∈ cs, c.isDigit = true ∨ c = '.' ∨ c = ':' := by
  unfold timeBody at h
  split at h
  · rename_i a rest
    simp only [Bool.and_eq_true] at h
    intro x hx
    simp only [List.mem_cons] at hx
    rcases hx with rfl | rfl | hx
    · exact Or.inl h.1
    · exact Or.inr (Or.inr rfl)
    · rcases timeTail_chars h.2 x hx with h1 | h1
      · exact Or.inl h1
      · exact Or.inr (Or.inl h1)
  · rename_i a b rest
    simp only [Bool.and_eq_true] at h
    intro x hx
    simp only [List.mem_cons] at hx
    rcases hx with rfl | rfl | rfl | hx
    · exact Or.inl h.1.1
    · exact Or.inl h.1.2
    · exact Or.inr (Or.inr rfl)
    · rcases timeTail_chars h.2 x hx with h1 | h1
      · exact Or.inl h1
      · exact Or.inr (Or.inl h1)
  · intro x hx
    rcases timeTail_chars h x hx with h1 | h1
    · exact Or.inl h1
    · exact Or.inr (Or.inl h1)

theorem timePatternMatch_false_of_space {s : String} (hmem : ' ' ∈ s.data) :
    timePatternMatch s = false := by
  cases htb : timeBody s.data
  · exact htb
  · rcases timeBody_chars htb ' ' hmem with h1 | h1 | h1 <;> simp at h1

theorem timePatternMatch_false_of_star {s : String} (hmem : '*' ∈ s.data) :
    timePatternMatch s = false := by
  cases htb : timeBody s.data
  · exact htb
  · rcases timeBody_chars htb '*' hmem with h1 | h1 | h1 <;> simp at h1

theorem timeBody_head {cs : List Char} (h : timeBody cs = true) :
    ∃ d t, cs = d :: t ∧ d.isDigit = true := by
  unfold timeBody at h
  split at h
  · simp only [Bool.and_eq_true] at h
    exact ⟨_, _, rfl, h.1⟩
  · simp only [Bool.and_eq_true] at h
    exact ⟨_, _, rfl, h.1.1⟩
  · unfold timeTail at h
    split at h
    · simp only [Bool.and_eq_true, decide_eq_true_eq] at h
      exact ⟨_, _, rfl, h.1.1.1.1⟩
    · exact absurd h (by simp)

theorem startsColon_data {s : String} (h : startsColon s = true) :
    ∃ t, s.data = ':' :: t := by
  unfold startsColon at h
  split at h
  · rename_i t heq
    exact ⟨t, heq⟩
  · exact absurd h (by simp)

theorem isDigitStr_head {s : String} (h : isDigitStr s = true) :
    ∃ d t, s.data = d :: t ∧ d.isDigit = true := by
  simp only [isDigitStr, Bool.and_eq_true] at h
  rcases hd : s.data with _ | ⟨d, t⟩
  · rw [hd] at h
    simp at h
  · refine ⟨d, t, rfl, ?_⟩
    have h2 := h.2
    rw [hd] at h2
    simp only [List.all_cons, Bool.and_eq_true] at h2
    exact h2.1

theorem strokeFacts : ∀ s ∈ strokeCodes, ' ' ∉ s.data ∧ ':' ∉ s.data ∧
    isDigitStr s = false ∧ timePatternMatch s = false := by decide

theorem courseFacts : ∀ s ∈ courseCodes, ' ' ∉ s.data ∧ ':' ∉ s.data := by
  decide

/-- Relation between the head of a merger input and the head of its
output: the head is either the first input token unchanged or one of the
three fusion results built from it. -/
def MergedHead (b h : String) : Prop :=
  h = b ∨
  (isDigitStr b = true ∧ ∃ x y, strokeCodes.contains x = true ∧
    courseCodes.contains y = true ∧ h = b ++ " " ++ x ++ " " ++ y) ∨
  (isDigitStr b = true ∧ ∃ x, startsColon x = true ∧
    (h = b ++ x ∨ h = b ++ x ++ " *")) ∨
  (timePatternMatch b = true ∧ h = b ++ " *")

theorem clean_row_head (b : String) (t : List String) :
    ∃ h m, clean_row (b :: t) = h :: m ∧ MergedHead b h := by
  match t with
  | [] => exact ⟨b, [], rfl, Or.inl rfl⟩
  | [c] =>
    by_cases h1 : (isDigitStr b && startsColon c) = true
    · refine ⟨b ++ c, [], by simp only [clean_row]; rw [if_pos h1], ?_⟩
      simp only [Bool.and_eq_true] at h1
      exact Or.inr (Or.inr (Or.inl ⟨h1.1, c, h1.2, Or.inl rfl⟩))
    · by_cases h2 : (timePatternMatch b && decide (c = "*")) = true
      · refine ⟨b ++ " *", [],
          by simp only [clean_row]; rw [if_neg h1, if_pos h2], ?_⟩
        simp only [Bool.and_eq_true] at h2
        exact Or.inr (Or.inr (Or.inr ⟨h2.1, rfl⟩))
      · exact ⟨b, clean_row [c],
          by simp only [clean_row]; rw [if_neg h1, if_neg h2], Or.inl rfl⟩
  | c :: d :: t2 =>
    by_cases h1 : (isDigitStr b && strokeCodes.contains c &&
        courseCodes.contains d) = true
    · refine ⟨b ++ " " ++ c ++ " " ++ d, clean_row t2,
        by simp only [clean_row]; rw [if_pos h1], ?_⟩
      simp only [Bool.and_eq_true] at h1
      exact Or.inr (Or.inl ⟨h1.1.1, c, d, h1.1.2, h1.2, rfl⟩)
    · by_cases h2 : (isDigitStr b && startsColon c) = true
      · by_cases h3 : d = "*"
        · subst h3
          refine ⟨b ++ c ++ " *", clean_row t2,
            by simp only [clean_row]
               rw [if_neg h1, if_pos h2, if_pos trivial], ?_⟩
          simp only [Bool.and_eq_true] at h2
          exact Or.inr (Or.inr (Or.inl ⟨h2.1, c, h2.2, Or.inr rfl⟩))
        · refine ⟨b ++ c, clean_row (d :: t2),
            by simp only [clean_row]
               rw [if_neg h1, if_pos h2, if_neg h3], ?_⟩
          simp only [Bool.and_eq_true] at h2
          exact Or.inr (Or.inr (Or.inl ⟨h2.1, c, h2.2, Or.inl rfl⟩))
      · by_cases h3 : (timePatternMatch b && decide (c = "*")) = true
        · refine ⟨b ++ " *", clean_row (d :: t2),
            by simp only [clean_row]
               rw [if_neg h1, if_neg h2, if_pos h3], ?_⟩
          simp only [Bool.and_eq_true] at h3
          exact Or.inr (Or.inr (Or.inr ⟨h3.1, rfl⟩))
        · exact ⟨b, clean_row (c :: d :: t2),
            by simp only [clean_row]; rw [if_neg h1, if_neg h2, if_neg h3],
            Or.inl rfl⟩

theorem startsColon_false_of_digit_head {s : String} {d : Char}
    {t : List Char} (hs : s.data = d :: t) (hd : d.isDigit = true) :
    startsColon s = false := by
  unfold startsColon
  split
  · rename_i t2 heq
    rw [hs] at heq
    injection heq with hh _
    rw [hh] at hd
    exact absurd hd (by decide)
  · rfl

theorem mergedHead_ne_star {b h : String} (hrel : MergedHead b h)
    (hb : b ≠ "*") : h ≠ "*" := by
  rcases hrel with rfl | ⟨_, x, y, _, _, rfl⟩ | ⟨_, x, hx, rfl | rfl⟩ |
    ⟨_, rfl⟩
  · exact hb
  · intro he
    have hsp : ' ' ∈ (b ++ " " ++ x ++ " " ++ y).data := by
      simp [data_append]
    rw [he] at hsp
    exact absurd hsp (by decide)
  · intro he
    obtain ⟨xt, hxd⟩ := startsColon_data hx
    have hcl : ':' ∈ (b ++ x).data := by
      rw [data_append, hxd]
      simp
    rw [he] at hcl
    exact absurd hcl (by decide)
  · intro he
    obtain ⟨xt, hxd⟩ := startsColon_data hx
    have hcl : ':' ∈ (b ++ x ++ " *").data := by
      rw [data_append, data_append, hxd]
      simp
    rw [he] at hcl
    exact absurd hcl (by decide)
  · intro he
    have hsp : ' ' ∈ (b ++ " *").data := by
      simp [data_append]
    rw [he] at hsp
    exact absurd hsp (by decide)

theorem head_of_append {b r : String} {d : Char} {t : List Char}
    (hbd : b.data = d :: t) : ∃ t2, (b ++ r).data = d :: t2 :=
  ⟨t ++ r.data, by rw [data_append, hbd]; rfl⟩

theorem mergedHead_startsColon {b h : String} (hrel : MergedHead b h)
    (hh : startsColon h = true) : startsColon b = true := by
  rcases hrel with rfl | ⟨hib, x, y, _, _, rfl⟩ | ⟨hib, x, hx, rfl | rfl⟩ |
    ⟨htb, rfl⟩
  · exact hh
  · obtain ⟨d, tl, hbd, hdd⟩ := isDigitStr_head hib
    obtain ⟨t1, h1⟩ : ∃ u, (b ++ " ").data = d :: u := head_of_append hbd
    obtain ⟨t2, h2⟩ : ∃ u, (b ++ " " ++ x).data = d :: u := head_of_append h1
    obtain ⟨t3, h3⟩ : ∃ u, (b ++ " " ++ x ++ " ").data = d :: u :=
      head_of_append h2
    obtain ⟨t4, h4⟩ : ∃ u, (b ++ " " ++ x ++ " " ++ y).data = d :: u :=
      head_of_append h3
    rw [startsColon_false_of_digit_head h4 hdd] at hh
    exact absurd hh (by simp)
  · obtain ⟨d, tl, hbd, hdd⟩ := isDigitStr_head hib
    obtain ⟨t1, h1⟩ : ∃ u, (b ++ x).data = d :: u := head_of_append hbd
    rw [startsColon_false_of_digit_head h1 hdd] at hh
    exact absurd hh (by simp)
  · obtain ⟨d, tl, hbd, hdd⟩ := isDigitStr_head hib
    obtain ⟨t1, h1⟩ : ∃ u, (b ++ x).data = d :: u := head_of_append hbd
    obtain ⟨t2, h2⟩ : ∃ u, (b ++ x ++ " *").data = d :: u :=
      head_of_append h1
    rw [startsColon_false_of_digit_head h2 hdd] at hh
    exact absurd hh (by simp)
  · obtain ⟨d, tl, hbd, hdd⟩ := timeBody_head htb
    obtain ⟨t1, h1⟩ : ∃ u, (b ++ " *").data = d :: u := head_of_append hbd
    rw [startsColon_false_of_digit_head h1 hdd] at hh
    exact absurd hh (by simp)

theorem mergedHead_mem_stroke {b h : String} (hrel : MergedHead b h)
    (hmem : strokeCodes.contains h = true) : h = b := by
  rcases hrel with rfl | ⟨_, x, y, _, _, rfl⟩ | ⟨_, x, hx, rfl | rfl⟩ |
    ⟨_, rfl⟩
  · rfl
  · exfalso
    have hsp : ' ' ∈ (b ++ " " ++ x ++ " " ++ y).data := by
      simp [data_append]
    exact (strokeFacts _ (contains_mem.1 hmem)).1 hsp
  · exfalso
    obtain ⟨xt, hxd⟩ := startsColon_data hx
    have hcl : ':' ∈ (b ++ x).data := by
      rw [data_append, hxd]
      simp
    exact (strokeFacts _ (contains_mem.1 hmem)).2.1 hcl
  · exfalso
    obtain ⟨xt, hxd⟩ := startsColon_data hx
    have hcl : ':' ∈ (b ++ x ++ " *").data := by
      rw [data_append, data_append, hxd]
      simp
    exact (strokeFacts _ (contains_mem.1 hmem)).2.1 hcl
  · exfalso
    have hsp : ' ' ∈ (b ++ " *").data := by
      simp [data_append]
    exact (strokeFacts _ (contains_mem.1 hmem)).1 hsp

theorem mergedHead_mem_course {b h : String} (hrel : MergedHead b h)
    (hmem : courseCodes.contains h = true) : h = b := by
  rcases hrel with rfl | ⟨_, x, y, _, _, rfl⟩ | ⟨_, x, hx, rfl | rfl⟩ |
    ⟨_, rfl⟩
  · rfl
  · exfalso
    have hsp : ' ' ∈ (b ++ " " ++ x ++ " " ++ y).data := by
      simp [data_append]
    exact (courseFacts _ (contains_mem.1 hmem)).1 hsp
  · exfalso
    obtain ⟨xt, hxd⟩ := startsColon_data hx
    have hcl : ':' ∈ (b ++ x).data := by
      rw [data_append, hxd]
      simp
    exact (courseFacts _ (contains_mem.1 hmem)).2 hcl
  · exfalso
    obtain ⟨xt, hxd⟩ := startsColon_data hx
    have hcl : ':' ∈ (b ++ x ++ " *").data := by
      rw [data_append, data_append, hxd]
      simp
    exact (courseFacts _ (contains_mem.1 hmem)).2 hcl
  · exfalso
    have hsp : ' ' ∈ (b ++ " *").data := by
      simp [data_append]
    exact (courseFacts _ (contains_mem.1 hmem)).1 hsp

/-- A token that is neither all-digits nor a complete time value is
emitted unchanged, no matter what follows. -/
theorem clean_row_cons_inert (a : String) (l : List String)
    (h1 : isDigitStr a = false) (h2 : timePatternMatch a = false) :
    clean_row (a :: l) = a :: clean_row l := by
  match l with
  | [] => rfl
  | [b] =>
    simp only [clean_row]
    rw [if_neg (by rw [h1]; simp), if_neg (by rw [h2]; simp)]
  | b :: c :: t =>
    simp only [clean_row]
    rw [if_neg (by rw [h1]; simp), if_neg (by rw [h1]; simp),
      if_neg (by rw [h2]; simp)]

/-- A non-digits token followed by anything but a bare `*` is emitted
unchanged. -/
theorem clean_row_cons_nostar (a : String) (l : List String)
    (h1 : isDigitStr a = false) (h2 : l.head? ≠ some "*") :
    clean_row (a :: l) = a :: clean_row l := by
  match l with
  | [] => rfl
  | [b] =>
    have hb : b ≠ "*" := by
      intro he
      subst he
      exact h2 rfl
    simp only [clean_row]
    rw [if_neg (by rw [h1]; simp), if_neg (by simp [hb])]
  | b :: c :: t =>
    have hb : b ≠ "*" := by
      intro he
      subst he
      exact h2 rfl
    simp only [clean_row]
    rw [if_neg (by rw [h1]; simp), if_neg (by rw [h1]; simp),
      if_neg (by simp [hb])]

/-- Claim C3: the token merger is idempotent — merging an already-merged
sequence returns it unchanged. -/
theorem clean_row_idem (l : List String) :
    clean_row (clean_row l) = clean_row l := by
  induction l using clean_row.induct with
  | case1 => rfl
  | case2 a => rfl
  | case3 a b h1 =>
    have hstep : clean_row [a, b] = [a ++ b] := by
      simp only [clean_row]
      rw [if_pos h1]
    rw [hstep]
    rfl
  | case4 a b h1 h2 =>
    have hstep : clean_row [a, b] = [a ++ " *"] := by
      simp only [clean_row]
      rw [if_neg h1, if_pos h2]
    rw [hstep]
    rfl
  | case5 a b h1 h2 ih =>
    have hstep : clean_row [a, b] = a :: clean_row [b] := by
      simp only [clean_row]
      rw [if_neg h1, if_neg h2]
    have hb : clean_row [b] = [b] := rfl
    rw [hstep, hb, hstep, hb]
  | case6 a b c t h1 ih =>
    have hstep : clean_row (a :: b :: c :: t) =
        (a ++ " " ++ b ++ " " ++ c) :: clean_row t := by
      simp only [clean_row]
      rw [if_pos h1]
    have hsp : ' ' ∈ (a ++ " " ++ b ++ " " ++ c).data := by
      simp [data_append]
    rw [hstep, clean_row_cons_inert _ _
      (isDigitStr_false_of_mem hsp (by decide))
      (timePatternMatch_false_of_space hsp), ih]
  | case7 a b t h2 h1 ih =>
    have hstep : clean_row (a :: b :: "*" :: t) =
        (a ++ b ++ " *") :: clean_row t := by
      simp only [clean_row]
      rw [if_neg h1, if_pos h2, if_pos trivial]
    have hsp : ' ' ∈ (a ++ b ++ " *").data := by
      simp [data_append]
    rw [hstep, clean_row_cons_inert _ _
      (isDigitStr_false_of_mem hsp (by decide))
      (timePatternMatch_false_of_space hsp), ih]
  | case8 a b c t h1 h2 h3 ih =>
    have hstep : clean_row (a :: b :: c :: t) =
        (a ++ b) :: clean_row (c :: t) := by
      simp only [clean_row]
      rw [if_neg h1, if_pos h2, if_neg h3]
    simp only [Bool.and_eq_true] at h2
    obtain ⟨bt, hbt⟩ := startsColon_data h2.2
    have hcl : ':' ∈ (a ++ b).data := by
      rw [data_append, hbt]
      simp
    obtain ⟨h, m, hm, hrel⟩ := clean_row_head c t
    have hstar : (clean_row (c :: t)).head? ≠ some "*" := by
      rw [hm]
      intro he
      exact mergedHead_ne_star hrel h3 (Option.some.inj he)
    rw [hstep, clean_row_cons_nostar _ _
      (isDigitStr_false_of_mem hcl (by decide)) hstar, ih]
  | case9 a b c t h1 h2 h3 ih =>
    have hstep : clean_row (a :: b :: c :: t) =
        (a ++ " *") :: clean_row (c :: t) := by
      simp only [clean_row]
      rw [if_neg h1, if_neg h2, if_pos h3]
    have hsp : ' ' ∈ (a ++ " *").data := by
      simp [data_append]
    rw [hstep, clean_row_cons_inert _ _
      (isDigitStr_false_of_mem hsp (by decide))
      (timePatternMatch_false_of_space hsp), ih]
  | case10 a b c t h1 h2 h3 ih =>
    have hstep : clean_row (a :: b :: c :: t) =
        a :: clean_row (b :: c :: t) := by
      simp only [clean_row]
      rw [if_neg h1, if_neg h2, if_neg h3]
    obtain ⟨h, m, hm, hrel⟩ := clean_row_head b (c :: t)
    have hidem : clean_row (h :: m) = h :: m := by
      rw [← hm]
      exact ih
    rw [hstep, hm]
    have hr2 : (isDigitStr a && startsColon h) = false := by
      cases hda : isDigitStr a
      · simp
      · cases hsc : startsColon h
        · simp
        · exact absurd (by
            rw [mergedHead_startsColon hrel hsc, Bool.and_true]
            exact hda) h2
    have hr3 : (timePatternMatch a && decide (h = "*")) = false := by
      by_cases hbstar : b = "*"
      · subst hbstar
        have hta : timePatternMatch a = false := by
          cases hta : timePatternMatch a
          · rfl
          · exact absurd (by rw [hta]; simp) h3
        rw [hta]
        simp
      · have hns : decide (h = "*") = false := by
          simp [mergedHead_ne_star hrel hbstar]
        rw [hns, Bool.and_false]
    cases m with
    | nil =>
      simp only [clean_row]
      rw [if_neg (by rw [hr2]; exact Bool.false_ne_true),
        if_neg (by rw [hr3]; exact Bool.false_ne_true)]
    | cons h2' m2 =>
      have hr1 : (isDigitStr a && strokeCodes.contains h &&
          courseCodes.contains h2') = false := by
        cases hda : isDigitStr a
        · simp
        · cases hs : strokeCodes.contains h
          · simp
          · have hhb : h = b := mergedHead_mem_stroke hrel hs
            have hsb : strokeCodes.contains b = true := by
              rw [← hhb]
              exact hs
            have hbfacts := strokeFacts b (contains_mem.1 hsb)
            have hinert : clean_row (b :: c :: t) =
                b :: clean_row (c :: t) :=
              clean_row_cons_inert b (c :: t) hbfacts.2.2.1 hbfacts.2.2.2
            have hmm2 : h :: h2' :: m2 = b :: clean_row (c :: t) := by
              rw [← hm, hinert]
            obtain ⟨hc2, mc2, hmc, hrelc⟩ := clean_row_head c t
            injection hmm2 with hhb2 htl
            rw [hmc] at htl
            injection htl with hh2 hm2
            cases hcourse : courseCodes.contains h2'
            · simp
            · exfalso
              apply h1
              have hcc : courseCodes.contains c = true := by
                have hc2c : hc2 = c := mergedHead_mem_course hrelc
                  (by rw [← hh2]; exact hcourse)
                rw [← hc2c, ← hh2]
                exact hcourse
              rw [hda, hsb, hcc]
              rfl
      simp only [clean_row]
      rw [if_neg (by rw [hr1]; exact Bool.false_ne_true),
        if_neg (by rw [hr2]; exact Bool.false_ne_true),
        if_neg (by rw [hr3]; exact Bool.false_ne_true), hidem]

end Extract
